import Mathlib

/-!
Model of the chickendinosaur eventemitter library (dist/EventEmitter.js, with
the historical removal scan of src/src/EventEmitter.js as a second
definition). Callbacks are opaque references modelled as natural numbers;
JavaScript reference equality between callbacks is Nat equality. A registry
slot mirrors the single-vs-array storage of the source: a slot is absent
(undefined in JS), holds one bare function, or holds an array of functions.
-/

/-- Value stored in a registry slot: either one bare callback (the JS case
where the stored value has constructor Function) or an array of callbacks. -/
inductive Handlers where
  | fn (cb : Nat)
  | arr (cbs : List Nat)
deriving DecidableEq

/-- The event carrier: the emitter only reads type_; target and payload are
opaque data for listeners (Event.js). -/
structure Event where
  type_ : Nat
  target : Option Nat
  payload : Option Nat
deriving DecidableEq

/-- EventEmitter state: the keyed registry (eventHandlers maps an event type
to an optional slot, none meaning the JS value undefined) and the pipe
registry (none meaning the JS value null). -/
structure EventEmitter where
  eventHandlers : Nat → Option Handlers
  pipedEventHandlers : Option Handlers

/-- The constructor EventEmitter(): empty keyed registry, null pipe list. -/
def emptyEmitter : EventEmitter := ⟨fun _ => none, none⟩

/-- Write one slot of the keyed registry, leaving the others and the pipe
registry alone. -/
def setSlot (e : EventEmitter) (t : Nat) (v : Option Handlers) : EventEmitter :=
  ⟨fun u => if u = t then v else e.eventHandlers u, e.pipedEventHandlers⟩

/-- addEventListener (dist lines 152-164): absent slot stores the bare
callback, a bare callback is promoted to a two-element array, an array gets
the callback pushed at the end. -/
def addEventListener (e : EventEmitter) (t cb : Nat) : EventEmitter :=
  match e.eventHandlers t with
  | none => setSlot e t (some (Handlers.fn cb))
  | some (Handlers.fn old) => setSlot e t (some (Handlers.arr [old, cb]))
  | some (Handlers.arr cbs) => setSlot e t (some (Handlers.arr (cbs ++ [cb])))

/-- The front-to-back scan of removeEventListener (dist lines 187-197):
splice out the first index whose element is the callback, leave the list
unchanged when no index matches. -/
def removeFirst (cb : Nat) : List Nat → List Nat
  | [] => []
  | x :: rest => if cb = x then rest else x :: removeFirst cb rest

/-- removeEventListener (dist lines 180-200): an absent slot is left alone, a
bare-callback slot is set to undefined without comparing the stored callback
to the argument, an array slot has the first front-to-back match spliced
out. -/
def removeEventListener (e : EventEmitter) (t cb : Nat) : EventEmitter :=
  match e.eventHandlers t with
  | none => e
  | some (Handlers.fn _) => setSlot e t none
  | some (Handlers.arr cbs) => setSlot e t (some (Handlers.arr (removeFirst cb cbs)))

/-- The loop of removeEventListener in src/src/EventEmitter.js lines 146-155
(same in src/unnamed/part_002): i starts at the array length and the loop
body compares eventListeners[i] before decrementing, so indices length down
to 1 are compared and index 0 never is; reading index length in JS yields
undefined, which never equals a function, modelled here by get? returning
none out of range. -/
def removeScanSrcAux (cb : Nat) (cbs : List Nat) : Nat → List Nat
  | 0 => cbs
  | i + 1 =>
    if cbs.get? (i + 1) = some cb then cbs.eraseIdx (i + 1)
    else removeScanSrcAux cb cbs i

/-- Entry point of the historical scan: the loop variable starts at the
array length. -/
def removeScanSrc (cb : Nat) (cbs : List Nat) : List Nat :=
  removeScanSrcAux cb cbs cbs.length

/-- removeEventListener as in src/src/EventEmitter.js lines 139-158: same
shape as the dist version except for the scan direction of the array case. -/
def removeEventListener_src (e : EventEmitter) (t cb : Nat) : EventEmitter :=
  match e.eventHandlers t with
  | none => e
  | some (Handlers.fn _) => setSlot e t none
  | some (Handlers.arr cbs) => setSlot e t (some (Handlers.arr (removeScanSrc cb cbs)))

/-- removeAllEventListeners (dist lines 208-220): a bare-callback slot is set
to undefined; an array slot is popped until empty, so the array stays in
place as an empty array. -/
def removeAllEventListeners (e : EventEmitter) (t : Nat) : EventEmitter :=
  match e.eventHandlers t with
  | none => e
  | some (Handlers.fn _) => setSlot e t none
  | some (Handlers.arr _) => setSlot e t (some (Handlers.arr []))

/-- getEventListenerCount (dist lines 228-240): 0 for an absent slot, 1 for a
bare callback, the array length otherwise. -/
def getEventListenerCount (e : EventEmitter) (t : Nat) : Nat :=
  match e.eventHandlers t with
  | none => 0
  | some (Handlers.fn _) => 1
  | some (Handlers.arr cbs) => cbs.length

/-- pipe (dist lines 246-256): same empty-to-single-to-array promotion as
addEventListener, on the pipe registry. -/
def pipe (e : EventEmitter) (cb : Nat) : EventEmitter :=
  match e.pipedEventHandlers with
  | none => ⟨e.eventHandlers, some (Handlers.fn cb)⟩
  | some (Handlers.fn old) => ⟨e.eventHandlers, some (Handlers.arr [old, cb])⟩
  | some (Handlers.arr cbs) => ⟨e.eventHandlers, some (Handlers.arr (cbs ++ [cb]))⟩

/-- getPipedEventListenerCount (dist lines 304-316). -/
def getPipedEventListenerCount (e : EventEmitter) : Nat :=
  match e.pipedEventHandlers with
  | none => 0
  | some (Handlers.fn _) => 1
  | some (Handlers.arr cbs) => cbs.length

/-- init (dist lines 323-325): this._eventHandlers is replaced by a fresh
empty object; the pipe registry field is not written. -/
def init (e : EventEmitter) : EventEmitter :=
  ⟨fun _ => none, e.pipedEventHandlers⟩

/-- The callbacks a slot delivers to, in invocation order: a bare callback is
called once, an array is walked from index 0 upward (dist triggerEvent
lines 111-122). -/
def slotCallbackIds : Option Handlers → List Nat
  | none => []
  | some (Handlers.fn cb) => [cb]
  | some (Handlers.arr cbs) => cbs

/-- One listener invocation record: the this context, the callback reference,
and the sole argument. -/
structure Call where
  ctx : EventEmitter
  cb : Nat
  arg : Event

/-- Invocation trace of triggerEvent (dist lines 107-142) when no listener
throws: the slot for event.type is walked in order, then the pipe registry,
each call receiving the event as sole argument and the emitter as this. -/
def triggerEventCalls (e : EventEmitter) (ev : Event) : List Call :=
  ((slotCallbackIds (e.eventHandlers ev.type_)).map fun c => Call.mk e c ev)
    ++ ((slotCallbackIds e.pipedEventHandlers).map fun c => Call.mk e c ev)

/-- The callbacks a slot delivers to in the src/src revision of triggerEvent
(src/src/EventEmitter.js lines 326-359): a bare callback is called once, but
an array is walked by `i = length; while (i > 0) { --i; call cbs[i] }`, that
is indices length-1 down to 0, so in reverse insertion order. -/
def slotCallbackIds_src : Option Handlers → List Nat
  | none => []
  | some (Handlers.fn cb) => [cb]
  | some (Handlers.arr cbs) => cbs.reverse

/-- Invocation trace of the src/src revision of triggerEvent (lines 326-359)
when no listener throws: the slot for event.type is walked in reverse, then
the pipe registry in reverse, each call receiving the event as sole argument
and the emitter as this. -/
def triggerEventCalls_src (e : EventEmitter) (ev : Event) : List Call :=
  ((slotCallbackIds_src (e.eventHandlers ev.type_)).map fun c => Call.mk e c ev)
    ++ ((slotCallbackIds_src e.pipedEventHandlers).map fun c => Call.mk e c ev)

/-- Run a list of callbacks left to right where thr says which callbacks
throw: returns the callbacks actually entered and true when one threw,
cutting off the rest. -/
def callEach (thr : Nat → Bool) : List Nat → List Nat × Bool
  | [] => ([], false)
  | c :: rest =>
    if thr c then ([c], true)
    else
      match callEach thr rest with
      | (tr, b) => (c :: tr, b)

/-- triggerEvent with exception semantics: a throw in the typed pass
propagates at once, so the pipe pass is never entered (dist lines 107-142,
no try-catch anywhere). -/
def triggerEventRun (thr : Nat → Bool) (e : EventEmitter) (ev : Event) :
    List Nat × Bool :=
  match callEach thr (slotCallbackIds (e.eventHandlers ev.type_)) with
  | (tr, true) => (tr, true)
  | (tr, false) =>
    match callEach thr (slotCallbackIds e.pipedEventHandlers) with
    | (tr2, b) => (tr ++ tr2, b)

/-- triggerEvent as a state transformer when listeners may mutate the
emitter: interp gives the state effect of each callback; the dispatcher
itself never writes the registries. -/
def triggerEventSt (interp : Nat → Event → EventEmitter → EventEmitter)
    (e : EventEmitter) (ev : Event) : EventEmitter :=
  let e1 := (slotCallbackIds (e.eventHandlers ev.type_)).foldl
    (fun s c => interp c ev s) e
  (slotCallbackIds e1.pipedEventHandlers).foldl (fun s c => interp c ev s) e1

/-- A sequence of addEventListener calls for one type, in order. -/
def registerAll (e : EventEmitter) (t : Nat) : List Nat → EventEmitter
  | [] => e
  | c :: rest => registerAll (addEventListener e t c) t rest

/-- The slot value reached by registering a list of callbacks into an absent
slot: none, a bare callback, or an array in insertion order. -/
def listToSlot : List Nat → Option Handlers
  | [] => none
  | [c] => some (Handlers.fn c)
  | c :: cs => some (Handlers.arr (c :: cs))

theorem setSlot_self (e : EventEmitter) (t : Nat) (v : Option Handlers) :
    (setSlot e t v).eventHandlers t = v := by
  simp [setSlot]

theorem setSlot_piped (e : EventEmitter) (t : Nat) (v : Option Handlers) :
    (setSlot e t v).pipedEventHandlers = e.pipedEventHandlers := rfl

theorem emitter_eq (e1 e2 : EventEmitter)
    (h1 : ∀ t, e1.eventHandlers t = e2.eventHandlers t)
    (h2 : e1.pipedEventHandlers = e2.pipedEventHandlers) : e1 = e2 := by
  cases e1
  cases e2
  simp only [EventEmitter.mk.injEq]
  exact ⟨funext h1, h2⟩

theorem setSlot_unchanged (e : EventEmitter) (t : Nat)
    (h : e.eventHandlers t = v) : setSlot e t v = e := by
  refine emitter_eq _ _ (fun u => ?_) rfl
  by_cases hu : u = t
  · subst hu
    simp [setSlot, h]
  · simp [setSlot, hu]

theorem count_eq_length (e : EventEmitter) (t : Nat) :
    getEventListenerCount e t = (slotCallbackIds (e.eventHandlers t)).length := by
  cases h : e.eventHandlers t with
  | none => simp [getEventListenerCount, slotCallbackIds, h]
  | some hs => cases hs <;> simp [getEventListenerCount, slotCallbackIds, h]

theorem piped_count_eq_length (e : EventEmitter) :
    getPipedEventListenerCount e = (slotCallbackIds e.pipedEventHandlers).length := by
  cases h : e.pipedEventHandlers with
  | none => simp [getPipedEventListenerCount, slotCallbackIds, h]
  | some hs => cases hs <;> simp [getPipedEventListenerCount, slotCallbackIds, h]

theorem removeFirst_not_mem (cb : Nat) (cbs : List Nat) (h : cb ∉ cbs) :
    removeFirst cb cbs = cbs := by
  induction cbs with
  | nil => rfl
  | cons x rest ih =>
    have hx : cb ≠ x := fun hcb => h (hcb ▸ List.mem_cons_self x rest)
    have hrest : cb ∉ rest := fun hcb => h (List.mem_cons_of_mem x hcb)
    simp [removeFirst, hx, ih hrest]

theorem removeFirst_decomp (cb : Nat) (cbs : List Nat) (h : cb ∈ cbs) :
    ∃ pre post, cbs = pre ++ cb :: post ∧ cb ∉ pre ∧
      removeFirst cb cbs = pre ++ post := by
  induction cbs with
  | nil => cases h
  | cons x rest ih =>
    by_cases hx : cb = x
    · refine ⟨[], rest, ?_, ?_, ?_⟩
      · simp [hx]
      · simp
      · simp [removeFirst, hx]
    · have hrest : cb ∈ rest := by
        rcases List.mem_cons.mp h with h1 | h1
        · exact absurd h1 hx
        · exact h1
      rcases ih hrest with ⟨pre, post, hdec, hpre, hrm⟩
      refine ⟨x :: pre, post, ?_, ?_, ?_⟩
      · simp [hdec]
      · intro hc
        rcases List.mem_cons.mp hc with h1 | h1
        · exact hx h1
        · exact hpre h1
      · simp [removeFirst, hx, hrm]

theorem mem_of_get?_eq (cbs : List Nat) (i cb : Nat)
    (h : cbs.get? i = some cb) : cb ∈ cbs := by
  induction cbs generalizing i with
  | nil => simp [List.get?] at h
  | cons x rest ih =>
    cases i with
    | zero =>
      simp [List.get?] at h
      simp [h]
    | succ j =>
      simp only [List.get?] at h
      exact List.mem_cons_of_mem x (ih j h)

theorem removeScanSrcAux_no_tail_match (cb : Nat) (cbs : List Nat)
    (h : ∀ i, 1 ≤ i → cbs.get? i ≠ some cb) :
    ∀ j, removeScanSrcAux cb cbs j = cbs := by
  intro j
  induction j with
  | zero => rfl
  | succ i ih =>
    have hne : cbs.get? (i + 1) ≠ some cb := h (i + 1) (by omega)
    simp only [removeScanSrcAux]
    rw [if_neg hne]
    exact ih

theorem removeScanSrc_head_only (cb : Nat) (rest : List Nat)
    (h : cb ∉ rest) : removeScanSrc cb (cb :: rest) = cb :: rest := by
  apply removeScanSrcAux_no_tail_match
  intro i hi hcontra
  cases i with
  | zero => omega
  | succ j =>
    simp only [List.get?] at hcontra
    exact h (mem_of_get?_eq rest j cb hcontra)

theorem removeScanSrc_not_mem (cb : Nat) (cbs : List Nat) (h : cb ∉ cbs) :
    removeScanSrc cb cbs = cbs := by
  apply removeScanSrcAux_no_tail_match
  intro i _ hcontra
  exact h (mem_of_get?_eq cbs i cb hcontra)

theorem addEventListener_slot_none (e : EventEmitter) (t cb : Nat)
    (h : e.eventHandlers t = none) :
    (addEventListener e t cb).eventHandlers t = some (Handlers.fn cb) := by
  unfold addEventListener
  rw [h]
  exact setSlot_self e t _

theorem addEventListener_slot_fn (e : EventEmitter) (t old cb : Nat)
    (h : e.eventHandlers t = some (Handlers.fn old)) :
    (addEventListener e t cb).eventHandlers t = some (Handlers.arr [old, cb]) := by
  unfold addEventListener
  rw [h]
  exact setSlot_self e t _

theorem addEventListener_piped (e : EventEmitter) (t cb : Nat) :
    (addEventListener e t cb).pipedEventHandlers = e.pipedEventHandlers := by
  unfold addEventListener
  split <;> rfl

theorem registerAll_piped (t : Nat) (cbs : List Nat) (e : EventEmitter) :
    (registerAll e t cbs).pipedEventHandlers = e.pipedEventHandlers := by
  induction cbs generalizing e with
  | nil => rfl
  | cons c rest ih =>
    simp [registerAll, ih, addEventListener_piped]

theorem registerAll_arr (t : Nat) (cbs : List Nat) :
    ∀ (e : EventEmitter) (acc : List Nat),
      e.eventHandlers t = some (Handlers.arr acc) →
      (registerAll e t cbs).eventHandlers t = some (Handlers.arr (acc ++ cbs)) := by
  induction cbs with
  | nil =>
    intro e acc h
    simpa [registerAll] using h
  | cons c rest ih =>
    intro e acc h
    have hadd : (addEventListener e t c).eventHandlers t
        = some (Handlers.arr (acc ++ [c])) := by
      unfold addEventListener
      rw [h]
      exact setSlot_self e t _
    have := ih (addEventListener e t c) (acc ++ [c]) hadd
    simpa [registerAll, List.append_assoc] using this

theorem registerAll_slot (e : EventEmitter) (t : Nat) (cbs : List Nat)
    (h : e.eventHandlers t = none) :
    (registerAll e t cbs).eventHandlers t = listToSlot cbs := by
  cases cbs with
  | nil => simpa [registerAll, listToSlot] using h
  | cons c rest =>
    have h1 : (addEventListener e t c).eventHandlers t = some (Handlers.fn c) :=
      addEventListener_slot_none e t c h
    cases rest with
    | nil => simpa [registerAll, listToSlot] using h1
    | cons c2 rest2 =>
      have h2 : (addEventListener (addEventListener e t c) t c2).eventHandlers t
          = some (Handlers.arr [c, c2]) :=
        addEventListener_slot_fn (addEventListener e t c) t c c2 h1
      have h3 := registerAll_arr t rest2 (addEventListener (addEventListener e t c) t c2)
        [c, c2] h2
      simpa [registerAll, listToSlot] using h3

theorem slotCallbackIds_listToSlot (cbs : List Nat) :
    slotCallbackIds (listToSlot cbs) = cbs := by
  cases cbs with
  | nil => rfl
  | cons c rest =>
    cases rest with
    | nil => rfl
    | cons c2 rest2 => rfl

theorem slotCallbackIds_src_listToSlot (cbs : List Nat) :
    slotCallbackIds_src (listToSlot cbs) = cbs.reverse := by
  cases cbs with
  | nil => rfl
  | cons c rest =>
    cases rest with
    | nil => rfl
    | cons c2 rest2 => rfl

theorem callEach_clean (thr : Nat → Bool) (cbs : List Nat)
    (h : ∀ c ∈ cbs, thr c = false) : callEach thr cbs = (cbs, false) := by
  induction cbs with
  | nil => rfl
  | cons c rest ih =>
    have hc : thr c = false := h c (List.mem_cons_self c rest)
    have hrest : ∀ x ∈ rest, thr x = false :=
      fun x hx => h x (List.mem_cons_of_mem c hx)
    simp [callEach, hc, ih hrest]

theorem callEach_hits (thr : Nat → Bool) (pre post : List Nat) (bad : Nat)
    (hpre : ∀ c ∈ pre, thr c = false) (hbad : thr bad = true) :
    callEach thr (pre ++ bad :: post) = (pre ++ [bad], true) := by
  induction pre with
  | nil => simp [callEach, hbad]
  | cons c rest ih =>
    have hc : thr c = false := hpre c (List.mem_cons_self c rest)
    have hrest : ∀ x ∈ rest, thr x = false :=
      fun x hx => hpre x (List.mem_cons_of_mem c hx)
    simp [callEach, hc, ih hrest]

theorem removeAll_slot_ids (e : EventEmitter) (t : Nat) :
    slotCallbackIds ((removeAllEventListeners e t).eventHandlers t) = [] := by
  cases hslot : e.eventHandlers t with
  | none =>
    unfold removeAllEventListeners
    rw [hslot]
    simp [slotCallbackIds, hslot]
  | some hs =>
    cases hs with
    | fn d =>
      unfold removeAllEventListeners
      rw [hslot, setSlot_self]
      rfl
    | arr cbs =>
      unfold removeAllEventListeners
      rw [hslot, setSlot_self]
      rfl

theorem count_removeAll (e : EventEmitter) (t : Nat) :
    getEventListenerCount (removeAllEventListeners e t) t = 0 := by
  rw [count_eq_length, removeAll_slot_ids]
  rfl

/-- C1 counterexample: registering callbacks 4 then 5 under type 0 and
triggering with the src/src revision of triggerEvent (lines 326-359) invokes
5 before 4, not in insertion order: the trace differs from the
insertion-order trace the claim demands and its callback sequence is
[5, 4]. -/
theorem triggerEvent_src_reverse_counterexample :
    triggerEventCalls_src (registerAll emptyEmitter 0 [4, 5]) (Event.mk 0 none none)
      ≠ ([4, 5].map fun c =>
          Call.mk (registerAll emptyEmitter 0 [4, 5]) c (Event.mk 0 none none)) ∧
    (triggerEventCalls_src (registerAll emptyEmitter 0 [4, 5])
        (Event.mk 0 none none)).map Call.cb = [5, 4] := by
  have hids : (triggerEventCalls_src (registerAll emptyEmitter 0 [4, 5])
      (Event.mk 0 none none)).map Call.cb = [5, 4] := rfl
  refine ⟨?_, hids⟩
  intro h
  have h2 : ([5, 4] : List Nat) = [4, 5] := by
    rw [← hids, h]
    rfl
  exact absurd h2 (by decide)

/-- C1 amended: registering a sequence of callbacks under one type
(duplicates allowed) and then triggering an event of that type invokes each
registered occurrence exactly once, with the event object as the sole
argument and the emitter instance as the invocation context; the dist
triggerEvent (lines 107-142) invokes them in insertion order, while the
src/src revision (lines 326-359) invokes them in reverse insertion order. -/
theorem triggerEvent_insertion_order (e : EventEmitter) (t : Nat)
    (cbs : List Nat) (ev : Event)
    (hslot : e.eventHandlers t = none)
    (hpipe : e.pipedEventHandlers = none)
    (htype : ev.type_ = t) :
    triggerEventCalls (registerAll e t cbs) ev
      = (cbs.map fun c => Call.mk (registerAll e t cbs) c ev) ∧
    triggerEventCalls_src (registerAll e t cbs) ev
      = cbs.reverse.map fun c => Call.mk (registerAll e t cbs) c ev := by
  constructor
  · unfold triggerEventCalls
    rw [htype, registerAll_slot e t cbs hslot, slotCallbackIds_listToSlot,
      registerAll_piped, hpipe]
    simp [slotCallbackIds]
  · unfold triggerEventCalls_src
    rw [htype, registerAll_slot e t cbs hslot, slotCallbackIds_src_listToSlot,
      registerAll_piped, hpipe]
    simp [slotCallbackIds_src]

theorem triggerEvent_insertion_order_witness :
    emptyEmitter.eventHandlers 1 = none ∧
    emptyEmitter.pipedEventHandlers = none ∧
    (Event.mk 1 none none).type_ = 1 ∧
    (triggerEventCalls (registerAll emptyEmitter 1 [4, 5, 4]) (Event.mk 1 none none)
      = ([4, 5, 4].map fun c =>
          Call.mk (registerAll emptyEmitter 1 [4, 5, 4]) c (Event.mk 1 none none)) ∧
    triggerEventCalls_src (registerAll emptyEmitter 1 [4, 5, 4]) (Event.mk 1 none none)
      = ([4, 5, 4] : List Nat).reverse.map fun c =>
          Call.mk (registerAll emptyEmitter 1 [4, 5, 4]) c (Event.mk 1 none none)) :=
  ⟨rfl, rfl, rfl,
    triggerEvent_insertion_order emptyEmitter 1 [4, 5, 4] (Event.mk 1 none none)
      rfl rfl rfl⟩

/-- C2: with at least one piped listener, every trigger call runs the type
slot for the event type first and then every piped listener exactly once,
and the piped segment of the invocation trace is the same list of callbacks
for events of any two types. -/
theorem triggerEvent_piped_every_type (e : EventEmitter) (ev ev2 : Event)
    (h : 0 < getPipedEventListenerCount e) :
    slotCallbackIds e.pipedEventHandlers ≠ [] ∧
    triggerEventCalls e ev
      = ((slotCallbackIds (e.eventHandlers ev.type_)).map fun c => Call.mk e c ev)
        ++ ((slotCallbackIds e.pipedEventHandlers).map fun c => Call.mk e c ev) ∧
    ((triggerEventCalls e ev).map Call.cb).drop
        (slotCallbackIds (e.eventHandlers ev.type_)).length
      = ((triggerEventCalls e ev2).map Call.cb).drop
        (slotCallbackIds (e.eventHandlers ev2.type_)).length := by
  refine ⟨?_, rfl, ?_⟩
  · rw [piped_count_eq_length] at h
    exact List.length_pos.mp h
  · have hcomp : ∀ (ee : EventEmitter) (evv : Event),
        (Call.cb ∘ fun c => Call.mk ee c evv) = id := by
      intro ee evv
      funext c
      rfl
    simp only [triggerEventCalls, List.map_append, List.map_map, hcomp,
      List.map_id]
    rw [List.drop_left, List.drop_left]

def pipedDemo : EventEmitter :=
  ⟨fun u => if u = 0 then some (Handlers.fn 1) else none,
    some (Handlers.arr [8, 9])⟩

def evA : Event := ⟨0, none, none⟩

def evB : Event := ⟨3, none, none⟩

theorem triggerEvent_piped_every_type_witness :
    0 < getPipedEventListenerCount pipedDemo ∧
    (slotCallbackIds pipedDemo.pipedEventHandlers ≠ [] ∧
    triggerEventCalls pipedDemo evA
      = ((slotCallbackIds (pipedDemo.eventHandlers evA.type_)).map
            fun c => Call.mk pipedDemo c evA)
        ++ ((slotCallbackIds pipedDemo.pipedEventHandlers).map
            fun c => Call.mk pipedDemo c evA) ∧
    ((triggerEventCalls pipedDemo evA).map Call.cb).drop
        (slotCallbackIds (pipedDemo.eventHandlers evA.type_)).length
      = ((triggerEventCalls pipedDemo evB).map Call.cb).drop
        (slotCallbackIds (pipedDemo.eventHandlers evB.type_)).length) :=
  ⟨by decide, triggerEvent_piped_every_type pipedDemo evA evB (by decide)⟩

/-- C3 counterexample: with one callback (reference 0) registered under type
0, removing the never-registered callback 1 clears the slot, taking the
count from 1 to 0, because the bare-callback branch of removeEventListener
never compares the stored callback with the argument. -/
theorem removeEventListener_single_slot_cleared :
    getEventListenerCount (addEventListener emptyEmitter 0 0) 0 = 1 ∧
    getEventListenerCount
      (removeEventListener (addEventListener emptyEmitter 0 0) 0 1) 0 = 0 := by
  constructor <;> rfl

/-- C3 amended: removing a callback that is not registered under a type
leaves the emitter unchanged and does not throw, provided the slot for that
type is absent or holds an array; in the bare-callback state the slot is
cleared no matter which callback is passed, so that state is excluded. Both
the dist scan and the historical src scan are no-ops here. -/
theorem removeEventListener_not_found_noop (e : EventEmitter) (t cb : Nat)
    (h : e.eventHandlers t = none ∨
      ∃ cbs, e.eventHandlers t = some (Handlers.arr cbs) ∧ cb ∉ cbs) :
    removeEventListener e t cb = e ∧ removeEventListener_src e t cb = e := by
  rcases h with h | ⟨cbs, h, hmem⟩
  · constructor
    · unfold removeEventListener
      rw [h]
    · unfold removeEventListener_src
      rw [h]
  · constructor
    · simp only [removeEventListener, h, removeFirst_not_mem cb cbs hmem]
      exact setSlot_unchanged e t h
    · simp only [removeEventListener_src, h, removeScanSrc_not_mem cb cbs hmem]
      exact setSlot_unchanged e t h

def arrDemo : EventEmitter :=
  ⟨fun u => if u = 0 then some (Handlers.arr [2, 3]) else none, none⟩

theorem removeEventListener_not_found_noop_witness :
    (arrDemo.eventHandlers 0 = some (Handlers.arr [2, 3]) ∧ (5 : Nat) ∉ [2, 3]) ∧
    removeEventListener arrDemo 0 5 = arrDemo ∧
    removeEventListener_src arrDemo 0 5 = arrDemo :=
  ⟨⟨rfl, by decide⟩,
    removeEventListener_not_found_noop arrDemo 0 5 (Or.inr ⟨[2, 3], rfl, by decide⟩)⟩

def frontDemo : EventEmitter :=
  ⟨fun u => if u = 0 then some (Handlers.arr [5, 7]) else none, none⟩

/-- C4 counterexample: callback 5 is registered at index 0 of the array slot
for type 0, yet the historical back-to-front scan removes nothing, so the
count stays at 2 instead of dropping to 1. -/
theorem removeEventListener_src_misses_front :
    getEventListenerCount frontDemo 0 = 2 ∧
    getEventListenerCount (removeEventListener_src frontDemo 0 5) 0 = 2 := by
  constructor <;> rfl

/-- C4 amended: the dist front-to-back removeEventListener removes exactly
one occurrence of a registered callback, the first match front-to-back, so
the count goes from 1 to 0 in the bare-callback state and from N to N-1 in
the array state; the historical back-to-front revision fails this when the
only occurrence of the callback sits at index 0 (see the index-zero
theorem for claim C10). -/
theorem removeEventListener_removes_first (e : EventEmitter) (t cb : Nat)
    (h : cb ∈ slotCallbackIds (e.eventHandlers t)) :
    ∃ pre post,
      slotCallbackIds (e.eventHandlers t) = pre ++ cb :: post ∧ cb ∉ pre ∧
      slotCallbackIds ((removeEventListener e t cb).eventHandlers t)
        = pre ++ post ∧
      getEventListenerCount (removeEventListener e t cb) t + 1
        = getEventListenerCount e t := by
  cases hslot : e.eventHandlers t with
  | none =>
    rw [hslot] at h
    simp [slotCallbackIds] at h
  | some hs =>
    cases hs with
    | fn d =>
      rw [hslot] at h
      simp only [slotCallbackIds, List.mem_singleton] at h
      subst h
      refine ⟨[], [], ?_, by simp, ?_, ?_⟩
      · simp [hslot, slotCallbackIds]
      · unfold removeEventListener
        rw [hslot, setSlot_self]
        rfl
      · rw [count_eq_length, count_eq_length, hslot]
        unfold removeEventListener
        rw [hslot, setSlot_self]
        rfl
    | arr cbs =>
      rw [hslot] at h
      simp only [slotCallbackIds] at h
      rcases removeFirst_decomp cb cbs h with ⟨pre, post, hdec, hpre, hrm⟩
      refine ⟨pre, post, ?_, hpre, ?_, ?_⟩
      · simp [hslot, slotCallbackIds, hdec]
      · unfold removeEventListener
        rw [hslot, setSlot_self]
        simp [slotCallbackIds, hrm]
      · rw [count_eq_length, count_eq_length, hslot]
        unfold removeEventListener
        rw [hslot, setSlot_self]
        simp only [slotCallbackIds]
        rw [hrm, hdec]
        simp [List.length_append]
        omega

theorem removeEventListener_removes_first_witness :
    (7 : Nat) ∈ slotCallbackIds (frontDemo.eventHandlers 0) ∧
    ∃ pre post,
      slotCallbackIds (frontDemo.eventHandlers 0) = pre ++ 7 :: post ∧
      (7 : Nat) ∉ pre ∧
      slotCallbackIds ((removeEventListener frontDemo 0 7).eventHandlers 0)
        = pre ++ post ∧
      getEventListenerCount (removeEventListener frontDemo 0 7) 0 + 1
        = getEventListenerCount frontDemo 0 :=
  ⟨by decide, removeEventListener_removes_first frontDemo 0 7 (by decide)⟩

/-- C5: the listener count is 0 for a type with no registration, equals the
number of registrations after registering any list of callbacks under that
type, and is 0 again after removeAllEventListeners on that type. The return
type Nat makes non-negativity inherent. -/
theorem getEventListenerCount_tracks_registrations (e : EventEmitter) (t : Nat)
    (cbs : List Nat) (h : e.eventHandlers t = none) :
    getEventListenerCount e t = 0 ∧
    getEventListenerCount (registerAll e t cbs) t = cbs.length ∧
    getEventListenerCount
      (removeAllEventListeners (registerAll e t cbs) t) t = 0 := by
  refine ⟨?_, ?_, ?_⟩
  · simp [getEventListenerCount, h]
  · rw [count_eq_length, registerAll_slot e t cbs h, slotCallbackIds_listToSlot]
  · exact count_removeAll (registerAll e t cbs) t

theorem getEventListenerCount_tracks_registrations_witness :
    emptyEmitter.eventHandlers 2 = none ∧
    getEventListenerCount emptyEmitter 2 = 0 ∧
    getEventListenerCount (registerAll emptyEmitter 2 [3, 4, 3]) 2 = [3, 4, 3].length ∧
    getEventListenerCount
      (removeAllEventListeners (registerAll emptyEmitter 2 [3, 4, 3]) 2) 2 = 0 :=
  ⟨rfl, getEventListenerCount_tracks_registrations emptyEmitter 2 [3, 4, 3] rfl⟩

/-- C6: when a listener in the typed pass throws, the exception propagates to
the caller of triggerEvent, the listeners before it have run, and neither the
remaining same-type listeners nor any piped listener of that trigger call
runs. -/
theorem triggerEvent_throw_aborts_dispatch (thr : Nat → Bool) (e : EventEmitter)
    (ev : Event) (pre post : List Nat) (bad : Nat)
    (hslot : slotCallbackIds (e.eventHandlers ev.type_) = pre ++ bad :: post)
    (hpre : ∀ c ∈ pre, thr c = false) (hbad : thr bad = true) :
    triggerEventRun thr e ev = (pre ++ [bad], true) := by
  unfold triggerEventRun
  rw [hslot, callEach_hits thr pre post bad hpre hbad]

def throwsNine : Nat → Bool := fun c => c == 9

def throwDemo : EventEmitter :=
  ⟨fun u => if u = 0 then some (Handlers.arr [1, 9, 3]) else none,
    some (Handlers.fn 7)⟩

theorem triggerEvent_throw_aborts_dispatch_witness :
    slotCallbackIds (throwDemo.eventHandlers evA.type_) = [1] ++ 9 :: [3] ∧
    (∀ c ∈ [1], throwsNine c = false) ∧
    throwsNine 9 = true ∧
    triggerEventRun throwsNine throwDemo evA = ([1] ++ [9], true) :=
  ⟨rfl, by decide, rfl,
    triggerEvent_throw_aborts_dispatch throwsNine throwDemo evA [1] [3] 9
      rfl (by decide) rfl⟩

/-- C7: triggering an event whose type has listener count 0 on an emitter
with piped listener count 0 invokes nothing, throws nothing, and leaves the
emitter state unchanged, for every possible state effect of the callbacks.
The count-0 hypotheses cover the absent slot, the kept-but-empty array slot
left by removeAllEventListeners, and the empty array pipe registry left by
unpipeAll. -/
theorem triggerEvent_empty_noop
    (interp : Nat → Event → EventEmitter → EventEmitter) (thr : Nat → Bool)
    (e : EventEmitter) (ev : Event)
    (h1 : getEventListenerCount e ev.type_ = 0)
    (h2 : getPipedEventListenerCount e = 0) :
    triggerEventSt interp e ev = e ∧ triggerEventRun thr e ev = ([], false) ∧
    triggerEventCalls e ev = [] := by
  have hids1 : slotCallbackIds (e.eventHandlers ev.type_) = [] := by
    rw [count_eq_length] at h1
    exact List.length_eq_zero.mp h1
  have hids2 : slotCallbackIds e.pipedEventHandlers = [] := by
    rw [piped_count_eq_length] at h2
    exact List.length_eq_zero.mp h2
  refine ⟨?_, ?_, ?_⟩
  · simp [triggerEventSt, hids1, hids2]
  · unfold triggerEventRun
    rw [hids1, hids2]
    rfl
  · unfold triggerEventCalls
    rw [hids1, hids2]
    rfl

def idInterp : Nat → Event → EventEmitter → EventEmitter := fun _ _ s => s

def noThrow : Nat → Bool := fun _ => false

def drainedDemo : EventEmitter :=
  ⟨fun u => if u = 0 then some (Handlers.arr []) else none,
    some (Handlers.arr [])⟩

theorem triggerEvent_empty_noop_witness :
    getEventListenerCount drainedDemo evA.type_ = 0 ∧
    getPipedEventListenerCount drainedDemo = 0 ∧
    triggerEventSt idInterp drainedDemo evA = drainedDemo ∧
    triggerEventRun noThrow drainedDemo evA = ([], false) ∧
    triggerEventCalls drainedDemo evA = [] :=
  ⟨rfl, rfl, triggerEvent_empty_noop idInterp noThrow drainedDemo evA rfl rfl⟩

/-- C8: removeAllEventListeners is idempotent, the count for the type is 0
after it, and a subsequent trigger of that type invokes no type-keyed
listener: the trace consists of the piped calls only. -/
theorem removeAllEventListeners_idempotent (e : EventEmitter) (t : Nat) :
    removeAllEventListeners (removeAllEventListeners e t) t
      = removeAllEventListeners e t ∧
    getEventListenerCount (removeAllEventListeners e t) t = 0 ∧
    ∀ tg pl, triggerEventCalls (removeAllEventListeners e t) (Event.mk t tg pl)
      = (slotCallbackIds (removeAllEventListeners e t).pipedEventHandlers).map
          fun c => Call.mk (removeAllEventListeners e t) c (Event.mk t tg pl) := by
  refine ⟨?_, count_removeAll e t, fun tg pl => ?_⟩
  · cases hslot : e.eventHandlers t with
    | none =>
      have h1 : removeAllEventListeners e t = e := by
        unfold removeAllEventListeners
        rw [hslot]
      rw [h1]
      exact h1
    | some hs =>
      cases hs with
      | fn d =>
        have h1 : removeAllEventListeners e t = setSlot e t none := by
          unfold removeAllEventListeners
          rw [hslot]
        rw [h1]
        unfold removeAllEventListeners
        rw [setSlot_self]
      | arr cbs =>
        have h1 : removeAllEventListeners e t
            = setSlot e t (some (Handlers.arr [])) := by
          unfold removeAllEventListeners
          rw [hslot]
        rw [h1]
        unfold removeAllEventListeners
        rw [setSlot_self]
        exact setSlot_unchanged _ t (setSlot_self e t _)
  · unfold triggerEventCalls
    have hids : slotCallbackIds
        ((removeAllEventListeners e t).eventHandlers (Event.mk t tg pl).type_)
        = [] := removeAll_slot_ids e t
    rw [hids]
    rfl

/-- C9: init clears only the type-keyed registry: every per-type count is 0
afterwards, the piped count is unchanged, and a trigger after init still
delivers the event to exactly the previously piped listeners. -/
theorem init_resets_only_typed_registry (e : EventEmitter) :
    (∀ t, getEventListenerCount (init e) t = 0) ∧
    getPipedEventListenerCount (init e) = getPipedEventListenerCount e ∧
    ∀ ty tg pl, triggerEventCalls (init e) (Event.mk ty tg pl)
      = (slotCallbackIds e.pipedEventHandlers).map
          fun c => Call.mk (init e) c (Event.mk ty tg pl) := by
  refine ⟨fun t => rfl, rfl, fun ty tg pl => rfl⟩

/-- C10: the historical back-to-front removal scan compares the stored
callbacks only at indices length down to 1 and never at index 0, so when the
only occurrence of the callback in an array slot is at index 0, the
src-revision removeEventListener leaves the emitter unchanged. -/
theorem removeEventListener_src_skips_index_zero (e : EventEmitter)
    (t cb : Nat) (rest : List Nat)
    (hslot : e.eventHandlers t = some (Handlers.arr (cb :: rest)))
    (h : cb ∉ rest) :
    removeEventListener_src e t cb = e := by
  simp only [removeEventListener_src, hslot, removeScanSrc_head_only cb rest h]
  exact setSlot_unchanged e t hslot

theorem removeEventListener_src_skips_index_zero_witness :
    frontDemo.eventHandlers 0 = some (Handlers.arr (5 :: [7])) ∧
    (5 : Nat) ∉ [7] ∧
    removeEventListener_src frontDemo 0 5 = frontDemo :=
  ⟨rfl, by decide,
    removeEventListener_src_skips_index_zero frontDemo 0 5 [7] rfl (by decide)⟩
